import Mathlib

/-!
Verification of the VariantWorks core against its specification.

The development shallowly embeds the two ingestion engines of the repository:

* the VCF label loader (`claragenomics/variantworks/label_loader.py`):
  `getVariantZygosity`, `getVariantType`, `getRecordInfo`,
  `createVariantTupleFromRecord`, `parseVcf` and the batch construction loop
  of `VCFLabelLoader.__init__`;
* the pileup insertion tokenizer `find_insertions` and the region/position
  logic of the pileup summary encoder, which are exercised by
  `tests/test_summary_encoder.py` but whose implementation file is not part
  of the sources at hand; those are modelled from the spec.

Machine integers do not overflow in any of the embedded paths (all counters
are small non-negative counts), so they are modelled as `Nat`.  Python
exceptions are modelled with `Except String`.
-/

namespace VariantWorks

/-- `VariantZygosity` enumeration from `variantworks/types.py`
(referenced by the loader): NO_VARIANT, HETEROZYGOUS, HOMOZYGOUS. -/
inductive VariantZygosity where
  | NO_VARIANT
  | HETEROZYGOUS
  | HOMOZYGOUS
deriving DecidableEq, Repr

/-- `VariantType` enumeration: SNP, INSERTION, DELETION. -/
inductive VariantType where
  | SNP
  | INSERTION
  | DELETION
deriving DecidableEq, Repr

/-- A value stored in a pyvcf record's INFO mapping, as discriminated by
`_get_record_info`: a Python `list` (elements already rendered with `str`),
a `bool`, or any other scalar (rendered with `str`). -/
inductive InfoVal where
  | vlist (xs : List String)
  | vbool (b : Bool)
  | vscalar (s : String)
deriving DecidableEq, Repr

/-- One entry of `record.samples`: pyvcf exposes `sample.called : bool` and
`sample.data`, an ordered tuple of optional genotype sub-fields. -/
structure SampleCall where
  called : Bool
  data : List (Option String)
deriving DecidableEq, Repr

/-- The slice of a pyvcf `record` that `label_loader.py` reads: the raw VCF
columns plus the library-derived attributes `is_snp`, `is_indel`,
`is_deletion`, `num_het` and `num_hom_alt`.  `num_called` is derived below
from the per-sample `called` flags, exactly as pyvcf derives it. -/
structure VCFRecord where
  CHROM : String
  POS : Nat
  ID : Option String
  REF : String
  ALT : List String
  QUAL : Option Int
  FILTER : String
  INFO : List (String × InfoVal)
  FORMAT : String
  samples : List SampleCall
  is_snp : Bool
  is_indel : Bool
  is_deletion : Bool
  num_het : Nat
  num_hom_alt : Nat
deriving DecidableEq, Repr

/-- pyvcf's `record.num_called`: the number of samples whose genotype is
called. -/
def num_called (r : VCFRecord) : Nat :=
  (r.samples.filter (fun s => s.called)).length

/-- The `Variant` named tuple from `variantworks/types.py`, with exactly the
fields populated by `_create_variant_tuple_from_record`. -/
structure Variant where
  chrom : String
  pos : Nat
  id : Option String
  ref : String
  allele : String
  quality : Option Int
  filter : String
  info : String
  format : String
  samples : List String
  zygosity : VariantZygosity
  type : VariantType
  vcf : String
  bam : String
deriving DecidableEq, Repr

/-- Python's `sep.join(xs)`: elements of `xs` interleaved with `sep`. -/
def strJoin (sep : String) : List String → String
  | [] => ""
  | [x] => x
  | x :: y :: xs => x ++ sep ++ strJoin sep (y :: xs)

/-- `VCFLabelLoader._get_variant_zygosity`: `is_fp` forces NO_VARIANT;
otherwise `num_het > 0` gives HETEROZYGOUS, else `num_hom_alt > 0` gives
HOMOZYGOUS, else a `ValueError` is raised. -/
def getVariantZygosity (r : VCFRecord) (is_fp : Bool) : Except String VariantZygosity :=
  if is_fp then
    .ok .NO_VARIANT
  else if 0 < r.num_het then
    .ok .HETEROZYGOUS
  else if 0 < r.num_hom_alt then
    .ok .HOMOZYGOUS
  else
    .error "Unexpected variant zygosity"

/-- `VCFLabelLoader._get_variant_type`: SNP, else indel split into
DELETION/INSERTION, else a `ValueError` is raised. -/
def getVariantType (r : VCFRecord) : Except String VariantType :=
  if r.is_snp then
    .ok .SNP
  else if r.is_indel then
    if r.is_deletion then .ok .DELETION else .ok .INSERTION
  else
    .error "Unexpected variant type"

/-- One INFO entry rendered by `_get_record_info`'s loop body: a list value
renders as `key=` followed by the comma-joined elements, a bool renders as
the bare key, any other value renders as `key=value`. -/
def infoEntry : String × InfoVal → String
  | (k, .vlist xs) => k ++ "=" ++ strJoin "," xs
  | (k, .vbool _) => k
  | (k, .vscalar s) => k ++ "=" ++ s

/-- `VCFLabelLoader._get_record_info`: every INFO entry rendered in original
order and joined with semicolons. -/
def getRecordInfo (info : List (String × InfoVal)) : String :=
  strJoin ";" (info.map infoEntry)

/-- Python `str(x) if x is not None else '.'` applied to one genotype
sub-field. -/
def sampleField : Option String → String
  | some s => s
  | none => "."

/-- `VCFLabelLoader._create_variant_tuple_from_record`: computes zygosity and
type (either may raise), then yields one `Variant` per ALT allele. -/
def createVariantTupleFromRecord (r : VCFRecord) (vcf_file bam : String)
    (is_fp : Bool) : Except String (List Variant) :=
  match getVariantZygosity r is_fp with
  | .error e => .error e
  | .ok var_zyg =>
    match getVariantType r with
    | .error e => .error e
    | .ok var_type =>
      .ok (r.ALT.map (fun alt =>
        { chrom := r.CHROM, pos := r.POS, id := r.ID, ref := r.REF,
          allele := alt, quality := r.QUAL, filter := r.FILTER,
          info := getRecordInfo r.INFO, format := r.FORMAT,
          samples := r.samples.map
            (fun s => strJoin ":" (s.data.map sampleField)),
          zygosity := var_zyg, type := var_type,
          vcf := vcf_file, bam := bam }))

/-- The record loop of `_parse_vcf`: a non-SNP record is skipped with a
warning, a record with fewer called samples than the file's sample count is
skipped with a warning, a multi-allelic record is skipped with a warning;
surviving records are expanded into variants appended to the labels. -/
def processRecords (ns : Nat) (vcf_file bam : String) (is_fp : Bool) :
    List VCFRecord → Except String (List Variant)
  | [] => .ok []
  | r :: rs =>
    if !r.is_snp then
      processRecords ns vcf_file bam is_fp rs
    else if num_called r < ns then
      processRecords ns vcf_file bam is_fp rs
    else if 1 < r.ALT.length then
      processRecords ns vcf_file bam is_fp rs
    else
      match createVariantTupleFromRecord r vcf_file bam is_fp with
      | .error e => .error e
      | .ok vs =>
        match processRecords ns vcf_file bam is_fp rs with
        | .error e => .error e
        | .ok rest => .ok (vs ++ rest)

/-- What `vcf.Reader(filename=...)` exposes of a VCF source: its path, its
sample list and its record stream. -/
structure VCFFile where
  path : String
  samples : List String
  records : List VCFRecord
deriving DecidableEq, Repr

/-- Python's `vcf_file[-3:]`: the last three characters of the path (the
whole path when shorter than three characters). -/
def lastThree (s : String) : List Char :=
  (s.data.reverse.take 3).reverse

/-- `VCFLabelLoader._parse_vcf`: asserts the `.gz` extension (an
`AssertionError` configuration failure), rejects files whose sample count is
not one with a `RuntimeError` naming the file, then runs the record loop. -/
def parseVcf (f : VCFFile) (bam : String) (is_fp : Bool) :
    Except String (List Variant) :=
  if lastThree f.path ≠ ['.', 'g', 'z'] then
    .error "VCF file needs to be compressed and indexed"
  else if f.samples.length ≠ 1 then
    .error ("Input vcf file " ++ f.path ++ " must only contain a single sample")
  else
    processRecords f.samples.length f.path bam is_fp f.records

/-- The `VcfBamPaths` named tuple handed to the loader: VCF source, BAM path,
is-false-positive flag. -/
structure VcfBamPath where
  vcf : VCFFile
  bam : String
  is_fp : Bool
deriving DecidableEq, Repr

/-- `VCFLabelLoader.__init__`: parses each triple in order, appending the
parsed variants to the shared labels list.  An exception aborts the loop;
labels appended by earlier triples have already been accumulated when a
later triple raises, which the pair result records: the variants parsed
before the abort, and the error if one was raised. -/
def processBatch : List VcfBamPath → List Variant × Option String
  | [] => ([], none)
  | t :: ts =>
    match parseVcf t.vcf t.bam t.is_fp with
    | .error e => ([], some e)
    | .ok vs =>
      let rest := processBatch ts
      (vs ++ rest.1, rest.2)

/-- Reads a decimal run-length: consumes leading digits, accumulating their
value, and returns the value with the remaining characters.  Modelled from
the spec: numeric run-length prefixes of the pileup grammar may be
multi-digit and the full decimal run length is read before consuming the
run. -/
def readNum : List Char → Nat → Nat × List Char
  | [], acc => (acc, [])
  | c :: rest, acc =>
    if c.isDigit then readNum rest (acc * 10 + (c.toNat - 48))
    else (acc, c :: rest)

/-- Modelled from the spec: the scanning loop of
`variantworks.utils.encoders.find_insertions`, whose implementation file is
not among the sources at hand (only its test is).  The state `prevStar`
records whether the most recently consumed base-call character was the
deletion sentinel `*`.  A `+` token reads its run length, emits the inserted
sequence together with the current `prevStar` flag, and leaves `prevStar`
unchanged (no base call intervenes); a `-` token reads its run length and
silently consumes the deleted run; any other character is a base call and
resets `prevStar` to whether it is `*`.  The fuel argument bounds the
recursion; each step consumes at least one character, so the input length is
always enough fuel. -/
def findInsGo : Nat → List Char → Bool → List String × List Bool
  | 0, _, _ => ([], [])
  | _ + 1, [], _ => ([], [])
  | fuel + 1, c :: rest, prevStar =>
    if c == '+' then
      let p := readNum rest 0
      let out := findInsGo fuel (p.2.drop p.1) prevStar
      (String.mk (p.2.take p.1) :: out.1, prevStar :: out.2)
    else if c == '-' then
      let p := readNum rest 0
      findInsGo fuel (p.2.drop p.1) prevStar
    else
      findInsGo fuel rest (c == '*')

/-- Modelled from the spec: `find_insertions` on a pileup column string
returns the inserted sequences in order of occurrence and, in parallel, the
preceded-by-deletion flags. -/
def find_insertions (s : String) : List String × List Bool :=
  findInsGo s.data.length s.data false

/-- One token of the pileup column grammar: a base-call character (including
the `*` and `#` sentinels), an insertion run, or a deletion run. -/
inductive PileupTok where
  | call (c : Char)
  | ins (s : String)
  | del (s : String)
deriving DecidableEq, Repr

/-- Modelled from the spec: the full tokenization of a pileup column string
under the grammar of the insertion scanner — `+` and `-` runs become
insertion and deletion tokens, every other character is a base call. -/
def tokenizeGo : Nat → List Char → List PileupTok
  | 0, _ => []
  | _ + 1, [] => []
  | fuel + 1, c :: rest =>
    if c == '+' then
      let p := readNum rest 0
      .ins (String.mk (p.2.take p.1)) :: tokenizeGo fuel (p.2.drop p.1)
    else if c == '-' then
      let p := readNum rest 0
      .del (String.mk (p.2.take p.1)) :: tokenizeGo fuel (p.2.drop p.1)
    else
      .call c :: tokenizeGo fuel rest

/-- Tokenization of a whole column string. -/
def tokenize (s : String) : List PileupTok :=
  tokenizeGo s.data.length s.data

/-- The inserted sequences of a token list, in order. -/
def insertionsOf : List PileupTok → List String
  | [] => []
  | .ins s :: ts => s :: insertionsOf ts
  | .call _ :: ts => insertionsOf ts
  | .del _ :: ts => insertionsOf ts

/-- The declarative preceded-by-deletion flags of a token list: an insertion
token's flag is true exactly when the base-call character most recently seen
before it (with deletion runs and other insertions not intervening) is the
`*` deletion sentinel; the accumulator carries that state. -/
def insFlags : List PileupTok → Bool → List Bool
  | [], _ => []
  | .call c :: ts, _ => insFlags ts (c == '*')
  | .ins _ :: ts, p => p :: insFlags ts p
  | .del _ :: ts, p => insFlags ts p

/-- Modelled from the spec: the length of the longest insertion occurring in
a pileup column, which drives the encoder's insertion sub-row expansion. -/
def maxInsLen (col : String) : Nat :=
  ((find_insertions col).1.map String.length).foldr Nat.max 0

/-- Modelled from the spec: the output rows the summary encoder emits for
one genomic position `p` (configured with
`exclude_no_coverage_positions = false`): a position outside the pileup
data contributes no rows; a covered position contributes a base row with
sub-index 0 plus one additional sub-row per unit of the longest insertion
observed there, sub-indices ascending from 0. -/
def rowsFor (cols : List String) (p : Nat) : List (Nat × Nat) :=
  if p < cols.length then
    (List.range (maxInsLen (cols.getD p "") + 1)).map (fun j => (p, j))
  else
    []

/-- Modelled from the spec: the position index the summary encoder returns
for the region `[startPos, endPos)` over pileup data whose column at
genomic coordinate `p` is `cols[p]` — rows in ascending position order,
ties ordered by sub-index.  The count matrix has exactly one row per entry
of this index. -/
def encoderPositions (cols : List String) (startPos endPos : Nat) :
    List (Nat × Nat) :=
  ((List.range' startPos (endPos - startPos)).map (rowsFor cols)).flatten

/-- A well-formed single-sample SNP record used to instantiate theorems:
one ALT allele, one called heterozygous sample. -/
def exGoodRecord : VCFRecord :=
  { CHROM := "chr1", POS := 10, ID := none, REF := "A", ALT := ["T"],
    QUAL := some 50, FILTER := "PASS", INFO := [], FORMAT := "GT",
    samples := [{ called := true, data := [some "0/1"] }],
    is_snp := true, is_indel := false, is_deletion := false,
    num_het := 1, num_hom_alt := 0 }

/-- A compressed, indexed, single-sample VCF source holding `exGoodRecord`. -/
def exGoodFile : VCFFile :=
  { path := "a.vcf.gz", samples := ["S1"], records := [exGoodRecord] }

/-- A VCF source whose path lacks the `.gz` extension. -/
def exBadFile : VCFFile :=
  { path := "b.vcf", samples := ["S1"], records := [] }

/-- A batch whose first triple is well-formed and whose second triple has an
uncompressed VCF path. -/
def exBatch : List VcfBamPath :=
  [⟨exGoodFile, "a.bam", false⟩, ⟨exBadFile, "b.bam", false⟩]

/-- A single-sample SNP record whose only sample genotype is not called. -/
def exUncalledRecord : VCFRecord :=
  { CHROM := "chr1", POS := 10, ID := none, REF := "A", ALT := ["T"],
    QUAL := some 50, FILTER := "PASS", INFO := [], FORMAT := "GT",
    samples := [{ called := false, data := [none] }],
    is_snp := true, is_indel := false, is_deletion := false,
    num_het := 0, num_hom_alt := 0 }

/-- C2: a VCF record with more than one ALT allele contributes no `Variant`
to the labels, and the record loop continues with the remaining records
(non-fatal skip via `continue`, not a per-allele split and not an error). -/
theorem C2_multiallelic_skipped (ns : Nat) (vcf_file bam : String)
    (is_fp : Bool) (r : VCFRecord) (rs : List VCFRecord)
    (h : 1 < r.ALT.length) :
    processRecords ns vcf_file bam is_fp (r :: rs)
      = processRecords ns vcf_file bam is_fp rs := by
  simp only [processRecords]
  split_ifs <;> rfl

theorem C2_multiallelic_skipped_witness :
    processRecords 1 "a.vcf.gz" "a.bam" false
        [{ exGoodRecord with ALT := ["T", "G"] }]
      = processRecords 1 "a.vcf.gz" "a.bam" false [] :=
  C2_multiallelic_skipped 1 "a.vcf.gz" "a.bam" false
    { exGoodRecord with ALT := ["T", "G"] } [] (by decide)

/-- C5: when a record is processed with the false-positive flag set, every
variant it yields carries zygosity NO_VARIANT, whatever the record's
genotype counters are. -/
theorem C5_fp_zygosity (r : VCFRecord) (vf bam : String) (vs : List Variant)
    (h : createVariantTupleFromRecord r vf bam true = .ok vs) :
    ∀ v ∈ vs, v.zygosity = VariantZygosity.NO_VARIANT := by
  intro v hv
  rw [createVariantTupleFromRecord] at h
  cases hty : getVariantType r with
  | error e =>
    rw [getVariantZygosity] at h
    simp [hty] at h
  | ok ty =>
    rw [getVariantZygosity] at h
    simp only [hty, if_true, Except.ok.injEq] at h
    subst h
    simp only [List.mem_map] at hv
    obtain ⟨alt, _, hv⟩ := hv
    rw [← hv]

/-- The single variant `exGoodRecord` yields when parsed as a false
positive. -/
def exFpVariant : Variant :=
  { chrom := "chr1", pos := 10, id := none, ref := "A",
    allele := "T", quality := some 50, filter := "PASS",
    info := "", format := "GT", samples := ["0/1"],
    zygosity := VariantZygosity.NO_VARIANT,
    type := VariantType.SNP, vcf := "a.vcf.gz", bam := "a.bam" }

theorem C5_fp_zygosity_witness :
    exFpVariant.zygosity = VariantZygosity.NO_VARIANT :=
  C5_fp_zygosity exGoodRecord "a.vcf.gz" "a.bam" [exFpVariant] rfl
    exFpVariant (List.mem_singleton.mpr rfl)

/-- C6: with the false-positive flag clear, a record with at least one
heterozygous call is classified HETEROZYGOUS; otherwise one with at least
one homozygous-alt call is classified HOMOZYGOUS; otherwise classification
raises, and inside the record loop that error is fatal — the record is not
silently skipped. -/
theorem C6_zygosity_classification (r : VCFRecord) :
    (0 < r.num_het → getVariantZygosity r false = .ok .HETEROZYGOUS)
    ∧ (r.num_het = 0 → 0 < r.num_hom_alt →
        getVariantZygosity r false = .ok .HOMOZYGOUS)
    ∧ (r.num_het = 0 → r.num_hom_alt = 0 →
        getVariantZygosity r false = .error "Unexpected variant zygosity")
    ∧ (∀ ns vf bam rs, r.is_snp = true → ¬ num_called r < ns →
        ¬ 1 < r.ALT.length → r.num_het = 0 → r.num_hom_alt = 0 →
        processRecords ns vf bam false (r :: rs)
          = .error "Unexpected variant zygosity") := by
  refine ⟨?_, ?_, ?_, ?_⟩
  · intro h
    simp [getVariantZygosity, h]
  · intro h0 h
    simp [getVariantZygosity, h0, h]
  · intro h0 h0'
    simp [getVariantZygosity, h0, h0']
  · intro ns vf bam rs hsnp hc ha h0 h0'
    have hcv : createVariantTupleFromRecord r vf bam false
        = .error "Unexpected variant zygosity" := by
      have hz : getVariantZygosity r false
          = .error "Unexpected variant zygosity" := by
        simp [getVariantZygosity, h0, h0']
      rw [createVariantTupleFromRecord, hz]
    simp [processRecords, hsnp, if_neg hc, if_neg ha, hcv]

theorem C6_zygosity_classification_witness :
    getVariantZygosity exGoodRecord false = .ok .HETEROZYGOUS :=
  (C6_zygosity_classification exGoodRecord).1 (by decide)

/-- C7: a VCF file whose sample count is not one makes the loader raise a
`RuntimeError` whose message names the offending file, and the batch loop
stops there: no later triple is processed and no variant is retained. -/
theorem C7_single_sample (t : VcfBamPath) (rest : List VcfBamPath)
    (hgz : lastThree t.vcf.path = ['.', 'g', 'z'])
    (hs : t.vcf.samples.length ≠ 1) :
    processBatch (t :: rest)
      = ([], some ("Input vcf file " ++ t.vcf.path
          ++ " must only contain a single sample")) := by
  simp [processBatch, parseVcf, hgz, hs]

theorem C7_single_sample_witness :
    processBatch [⟨{ exGoodFile with samples := ["S1", "S2"] }, "a.bam", false⟩,
                  ⟨exGoodFile, "a.bam", false⟩]
      = ([], some ("Input vcf file " ++ "a.vcf.gz"
          ++ " must only contain a single sample")) :=
  C7_single_sample ⟨{ exGoodFile with samples := ["S1", "S2"] }, "a.bam", false⟩
    [⟨exGoodFile, "a.bam", false⟩] (by decide) (by decide)

/-- C8: the INFO flattening renders a list value as the key, `=`, and the
comma-joined elements; a boolean value as the bare key; any other scalar as
`key=value`; and joins successive entries with `;` in original key order. -/
theorem C8_info_flattening :
    (∀ k xs, getRecordInfo [(k, InfoVal.vlist xs)]
        = k ++ "=" ++ strJoin "," xs)
    ∧ (∀ k b, getRecordInfo [(k, InfoVal.vbool b)] = k)
    ∧ (∀ k s, getRecordInfo [(k, InfoVal.vscalar s)] = k ++ "=" ++ s)
    ∧ (∀ e es, es ≠ [] →
        getRecordInfo (e :: es) = infoEntry e ++ ";" ++ getRecordInfo es) := by
  refine ⟨fun k xs => rfl, fun k b => rfl, fun k s => rfl, fun e es h => ?_⟩
  cases es with
  | nil => exact absurd rfl h
  | cons e' es' => rfl

theorem C8_info_flattening_witness :
    getRecordInfo [("DP", InfoVal.vscalar "10"), ("FLAG", InfoVal.vbool true)]
      = infoEntry ("DP", InfoVal.vscalar "10") ++ ";"
        ++ getRecordInfo [("FLAG", InfoVal.vbool true)] :=
  C8_info_flattening.2.2.2 ("DP", InfoVal.vscalar "10")
    [("FLAG", InfoVal.vbool true)] (by decide)

/-- C9: for an SNP record in a single-sample VCF, the called-genotype filter
condition `num_called < 1` holds exactly when no sample genotype in the
record is called, and such a record is skipped by the record loop while the
loop continues with the remaining records. -/
theorem C9_called_filter (r : VCFRecord) (rs : List VCFRecord)
    (vf bam : String) (fp : Bool)
    (hsnp : r.is_snp = true) (h1 : r.samples.length = 1) :
    ((num_called r < 1) ↔ ∀ s ∈ r.samples, s.called = false)
    ∧ ((∀ s ∈ r.samples, s.called = false) →
        processRecords 1 vf bam fp (r :: rs)
          = processRecords 1 vf bam fp rs) := by
  obtain ⟨s, hs⟩ := List.length_eq_one.mp h1
  constructor
  · rw [hs]
    rcases hcs : s.called with _ | _ <;>
      simp [num_called, hs, List.filter, hcs]
  · intro hall
    have hnc : num_called r < 1 := by
      have hc := hall s (by rw [hs]; exact List.mem_singleton.mpr rfl)
      simp [num_called, hs, List.filter, hc]
    simp [processRecords, hsnp, hnc]

theorem C9_called_filter_witness :
    processRecords 1 "a.vcf.gz" "a.bam" false [exUncalledRecord]
      = processRecords 1 "a.vcf.gz" "a.bam" false [] :=
  (C9_called_filter exUncalledRecord [] "a.vcf.gz" "a.bam" false
    rfl rfl).2 (by decide)

/-- C10: a boolean INFO value renders as the bare key whether it is true or
false — the flattened string records only the key's presence. -/
theorem C10_bool_info_presence (pre post : List (String × InfoVal))
    (k : String) :
    getRecordInfo (pre ++ (k, InfoVal.vbool true) :: post)
      = getRecordInfo (pre ++ (k, InfoVal.vbool false) :: post) := by
  simp [getRecordInfo, infoEntry]

/-- C3 counterexample: a batch whose first VCF is well-formed and whose
second VCF path lacks the `.gz` extension.  Construction raises the
configuration error, yet the variants of the first VCF have already been
parsed and appended before the error is hit — refuting the claim that no
record of any VCF in the batch is parsed. -/
theorem C3_counterexample :
    (∃ t ∈ exBatch, lastThree t.vcf.path ≠ ['.', 'g', 'z'])
    ∧ (processBatch exBatch).2.isSome = true
    ∧ (processBatch exBatch).1 ≠ [] := by decide

/-- C3 amended: a VCF path without the `.gz` extension raises the
configuration error before any record of that file is parsed (whatever its
record stream holds), and from that triple on the batch loop aborts; records
of VCFs listed earlier in the batch have already been parsed by then. -/
theorem C3_extension_check (f : VCFFile) (bam : String) (fp : Bool)
    (h : lastThree f.path ≠ ['.', 'g', 'z']) :
    (∀ rs : List VCFRecord,
      parseVcf { f with records := rs } bam fp
        = .error "VCF file needs to be compressed and indexed")
    ∧ ∀ rest : List VcfBamPath,
        processBatch (⟨f, bam, fp⟩ :: rest)
          = ([], some "VCF file needs to be compressed and indexed") := by
  constructor
  · intro rs
    simp [parseVcf, h]
  · intro rest
    simp [processBatch, parseVcf, h]

theorem C3_extension_check_witness :
    processBatch [⟨exBadFile, "b.bam", false⟩]
      = ([], some "VCF file needs to be compressed and indexed") :=
  (C3_extension_check exBadFile "b.bam" false (by decide)).2 []

/-- The insertion scanner agrees step-by-step with the tokenization: it
returns the insertion sequences of the token list and the flags obtained by
carrying the last-base-call-was-`*` state across the tokens. -/
lemma findInsGo_eq_tokenizeGo (fuel : Nat) : ∀ (l : List Char) (p : Bool),
    findInsGo fuel l p
      = (insertionsOf (tokenizeGo fuel l), insFlags (tokenizeGo fuel l) p) := by
  induction fuel with
  | zero =>
    intro l p
    simp [findInsGo, tokenizeGo, insertionsOf, insFlags]
  | succ n ih =>
    intro l p
    cases l with
    | nil => simp [findInsGo, tokenizeGo, insertionsOf, insFlags]
    | cons c rest =>
      simp only [findInsGo, tokenizeGo]
      by_cases h1 : (c == '+') = true
      · simp [h1, insertionsOf, insFlags, ih]
      · by_cases h2 : (c == '-') = true
        · simp [h1, h2, insertionsOf, insFlags, ih]
        · simp [h1, h2, insertionsOf, insFlags, ih]

/-- C4: the insertion-extraction operation returns exactly the test vectors
of `test_find_insertion` on the two pileup strings of the repository's test
suite, and in general it returns the insertion runs of the column's
tokenization paired with flags that are true exactly when the base-call
character last seen before the insertion (no base call intervening) is the
`*` deletion sentinel. -/
theorem C4_find_insertions :
    find_insertions "A+1Ta*+1TAa+1Ga" = (["T", "T", "G"], [false, true, false])
    ∧ find_insertions "G+1CG+1CG+1CGGG-1NTagg+2gag-1ng-1nggGggGG#"
        = (["C", "C", "C", "ga"], [false, false, false, false])
    ∧ ∀ s : String,
        find_insertions s = (insertionsOf (tokenize s), insFlags (tokenize s) false) :=
  ⟨by decide, by decide,
    fun s => findInsGo_eq_tokenizeGo s.data.length s.data false⟩

/-- Pileup data with coverage at positions 0..5 and an insertion observed at
position 5, mirroring the shape the repository's region-bounds test expects
for its fixture (its region `[5,6)` yields the two-row position index
`[[5,0],[5,1]]`). -/
def exToyPileup : List String :=
  ["A", "A", "A", "A", "A", "A+1TA"]

/-- C1 counterexample: on pileup data with an insertion at position 5, the
width-1 region `[5,6)` yields a two-row position index `[[5,0],[5,1]]` — not
the single row `[[5,0]]` the claim asserts — so the count-matrix row count
(2) differs from the number of retained genomic positions in range (1).
This matches the fourth parameter set of `test_encoder_region_bounds`. -/
theorem C1_counterexample :
    encoderPositions exToyPileup 5 6 = [(5, 0), (5, 1)]
    ∧ encoderPositions exToyPileup 5 6 ≠ [(5, 0)]
    ∧ (encoderPositions exToyPileup 5 6).length ≠ 1 := by decide

/-- C1 amended: for a region `[s,e)` fully covered by pileup data the row
count equals the sum over in-range positions of one plus that position's
longest-insertion length (so it equals the number of in-range genomic
positions exactly when no insertion sub-rows are emitted); the row count is
monotonic in the region width for fixed data; and a width-1 region at a
position with no insertions yields the single-row position index
`[[start, 0]]`. -/
theorem C1_encoder_rows (cols : List String) :
    (∀ s e, s ≤ e → e ≤ cols.length →
      (encoderPositions cols s e).length
        = ((List.range' s (e - s)).map
            (fun p => 1 + maxInsLen (cols.getD p ""))).sum)
    ∧ (∀ s e e', s ≤ e → e ≤ e' →
        (encoderPositions cols s e).length
          ≤ (encoderPositions cols s e').length)
    ∧ (∀ p, p < cols.length → maxInsLen (cols.getD p "") = 0 →
        encoderPositions cols p (p + 1) = [(p, 0)]) := by
  refine ⟨?_, ?_, ?_⟩
  · intro s e hse hlen
    rw [encoderPositions, List.length_flatten, List.map_map]
    refine congrArg List.sum (List.map_congr_left ?_)
    intro p hp
    have hp' := List.mem_range'_1.mp hp
    have hplt : p < cols.length := by omega
    simp [rowsFor, hplt]
    omega
  · intro s e e' hse hee
    have h1 : e' - s = (e' - e) + (e - s) := by omega
    have key : List.range' s ((e' - e) + (e - s))
        = List.range' s (e - s) ++ List.range' (s + (e - s)) (e' - e) :=
      (List.range'_append_1 s (e - s) (e' - e)).symm
    rw [encoderPositions, encoderPositions, h1, key, List.map_append,
      List.flatten_append, List.length_append]
    exact Nat.le_add_right _ _
  · intro p hp hm
    have h1 : p + 1 - p = 1 := by omega
    rw [encoderPositions, h1, List.range'_one]
    simp only [List.map_cons, List.map_nil, List.flatten_cons,
      List.flatten_nil, List.append_nil]
    rw [rowsFor, if_pos hp, hm]
    rfl

theorem C1_encoder_rows_witness :
    encoderPositions exToyPileup 0 1 = [(0, 0)] :=
  (C1_encoder_rows exToyPileup).2.2 0 (by decide) (by decide)

end VariantWorks
